import Mathlib

/-!
Shallow embedding of the Voxel3D viewer core (scene model, renderer
batching/picking/selection, ZMQ subscriber loop) and proofs about it.

Python floats are modelled as rationals (`ℚ`), Python `int` as `ℤ`,
Python heterogeneous values (JSON-like documents) as the inductive `PyVal`.
-/

namespace Voxel3D

/-! ## Python-value model (for `scene_model.py`) -/

/-- A Python/JSON-like value: `None`, bool, int, float, string, list, dict
(dict as an association list with unique string keys, as in Python). -/
inductive PyVal where
  | pynone
  | pybool (b : Bool)
  | pyint (n : ℤ)
  | pyfloat (q : ℚ)
  | pystr (s : String)
  | pylist (l : List PyVal)
  | pydict (l : List (String × PyVal))

/-- `isinstance(v, dict)`. -/
def isDict : PyVal → Bool
  | PyVal.pydict _ => true
  | _ => false

/-- Whether a value is a (list) sequence — the shape the spec's invariant
"both sequences are always present … and are never null" requires. -/
def isSeq : PyVal → Bool
  | PyVal.pylist _ => true
  | _ => false

/-- Key lookup in a value: `some v` iff the value is a dict containing the
key (first binding wins, as Python dicts have unique keys). -/
def dictLookup : PyVal → String → Option PyVal
  | PyVal.pydict l, k => l.lookup k
  | _, _ => Option.none

/-- Python's `d.get(k, default)` on a dict value. -/
def dictGet (v : PyVal) (k : String) (d : PyVal) : PyVal :=
  match dictLookup v k with
  | Option.some w => w
  | Option.none => d

/-! ## SceneModel (`src/v3d/scene_model.py`) -/

/-- The `SceneModel` state: the `points` and `segments` attributes.
They are typed `PyVal` because `set_from_dict` stores whatever value the
incoming document holds under those keys. -/
structure SceneModelS where
  points : PyVal
  segments : PyVal

/-- `SceneModel.__init__`: created empty. -/
def SceneModelS.init : SceneModelS :=
  ⟨PyVal.pylist [], PyVal.pylist []⟩

/-- `SceneModel.set_from_dict(data)`:
`self.points = data.get('points', []) if isinstance(data, dict) else []`
and likewise for `segments`. -/
def setFromDict (_m : SceneModelS) (data : PyVal) : SceneModelS :=
  { points := if isDict data then dictGet data "points" (PyVal.pylist []) else PyVal.pylist []
    segments := if isDict data then dictGet data "segments" (PyVal.pylist []) else PyVal.pylist [] }

/-- `SceneModel.to_dict()`: `{'points': self.points, 'segments': self.segments}`. -/
def toDict (m : SceneModelS) : PyVal :=
  PyVal.pydict [("points", m.points), ("segments", m.segments)]

/-- A scene document with exactly the two fields. -/
def mkDoc (ps ss : PyVal) : PyVal :=
  PyVal.pydict [("points", ps), ("segments", ss)]

/-! ### randomize (`SceneModel.randomize`) -/

/-- A point produced by `randomize` (all fields are always set there). -/
structure RPoint where
  id : String
  x : ℚ
  y : ℚ
  z : ℚ
  size : ℚ
  color : List ℚ

/-- A segment produced by `randomize`. -/
structure RSeg where
  start : List ℚ
  stop : List ℚ
  color : List ℚ
  width : ℚ

/-- `random.choice(l)`: returns some element of `l` (which one depends on
the random source, modelled by the index `k`); raises `IndexError` on an
empty sequence, modelled as `Option.none`. -/
def pyChoice (l : List RPoint) (k : ℕ) : Option RPoint :=
  l[k % l.length]?

/-- One segment of `randomize`: pick start and end points at random from
the generated point list (raising if it is empty) and record their
positions. `colf` is the segment's random color. -/
def randSeg (pts : List RPoint) (colf : List ℚ) (ks ke : ℕ) : Option RSeg := do
  let s ← pyChoice pts ks
  let e ← pyChoice pts ke
  pure { start := [s.x, s.y, s.z], stop := [e.x, e.y, e.z], color := colf, width := 2 }

/-- Point `i` of `randomize`: id `"p{i}"`, random coordinates within the
bounds, random size and color — all drawn from the random source `gp`. -/
def randPoint (gp : ℕ → ℚ × ℚ × ℚ × ℚ × List ℚ) (i : ℕ) : RPoint :=
  { id := "p" ++ toString i, x := (gp i).1, y := (gp i).2.1, z := (gp i).2.2.1,
    size := (gp i).2.2.2.1, color := (gp i).2.2.2.2 }

/-- `SceneModel.randomize(n_points, n_segments)`. The random draws are
parameters: `gp i` gives point `i`'s coordinates, size and color;
`gc j` gives segment `j`'s two choice indices; `gcol j` its color.
`random.choice` on an empty point list raises, hence `Option`. -/
def randomizeM (nPoints nSegments : ℕ)
    (gp : ℕ → ℚ × ℚ × ℚ × ℚ × List ℚ)
    (gc : ℕ → ℕ × ℕ) (gcol : ℕ → List ℚ) :
    Option (List RPoint × List RSeg) := do
  let pts := (List.range nPoints).map (randPoint gp)
  let segs ← (List.range nSegments).mapM fun j =>
    randSeg pts (gcol j) (gc j).1 (gc j).2
  pure (pts, segs)

/-! ## Renderer (`src/v3d/renderer.py`) -/

/-- `_to_uchar_rgb(color)`: clamp each of the first three components to
[0,1], scale by 255 and truncate to int (`int()` truncates toward zero;
the clamped product is nonnegative, so it equals the floor). -/
def toUcharRgb (color : List ℚ) : List ℤ :=
  (color.take 3).map fun c => ⌊max 0 (min 1 c) * 255⌋

/-- The `SceneRenderer` draw/selection state relevant to the claims:
the batched point arrays (`point_points`, `point_scales`, `point_colors`),
the batched line arrays, the selected index list, and the cached original
scale/color snapshots. The arrays are index-aligned with the point
sequence, exactly as VTK keeps them. Selected ids are `ℤ` because the
locator can report `-1`. -/
structure RendererState where
  positions : List (ℚ × ℚ × ℚ)
  scales : List ℚ
  colors : List (ℤ × ℤ × ℤ)
  linePoints : List (ℚ × ℚ × ℚ)
  lineCells : List (ℕ × ℕ)
  lineColors : List (ℤ × ℤ × ℤ)
  selected_ids : List ℤ
  origScales : List ℚ
  origColors : List (ℤ × ℤ × ℤ)

/-- `SceneRenderer.clear()`: `Reset()` on the point and line arrays; the
selection list and the original-value snapshots are not touched. -/
def rclear (s : RendererState) : RendererState :=
  { s with positions := [], scales := [], colors := [],
           linePoints := [], lineCells := [], lineColors := [] }

/-- Writing `f pid` at each in-range selected index of `a` in order, as the
highlight loop of `_update_selection_actor` does (`continue` on an
out-of-range id). -/
def setAtIds {α : Type} (n : ℕ) (ids : List ℤ) (f : ℕ → α) (a : List α) : List α :=
  ids.foldl (fun acc pid =>
    if pid < 0 ∨ (n : ℤ) ≤ pid then acc else acc.set pid.toNat (f pid.toNat)) a

/-- `SceneRenderer._update_selection_actor()`: if a snapshot array's length
disagrees with the point count it is rebuilt from the live batch arrays
(the `except` branch supplies 0.05 / white); then every point is restored
to its snapshot value, and every in-range selected id gets scale × 2.5 and
the fixed highlight color (255,0,0). The restore loop overwrites all `n`
entries from the (length-`n`) snapshot, so the restored arrays equal the
snapshots before highlights are applied. -/
def updateSelectionActor (s : RendererState) : RendererState :=
  let n := s.positions.length
  let os := if s.origScales.length = n then s.origScales
            else (List.range n).map fun i => s.scales.getD i (1/20)
  let oc := if s.origColors.length = n then s.origColors
            else (List.range n).map fun i => s.colors.getD i (255, 255, 255)
  let sc := setAtIds n s.selected_ids (fun i => os.getD i 0 * (5/2)) os
  let co := setAtIds n s.selected_ids (fun _ => ((255 : ℤ), (0 : ℤ), (0 : ℤ))) oc
  { s with scales := sc, colors := co, origScales := os, origColors := oc }

/-! ### render -/

/-- A point object as `render` reads it: every field is optional
(`p.get(key, default)`). -/
structure PPoint where
  x : Option ℚ := Option.none
  y : Option ℚ := Option.none
  z : Option ℚ := Option.none
  size : Option ℚ := Option.none
  color : Option (List ℚ) := Option.none

/-- A segment object as `render` reads it. -/
structure PSeg where
  start : Option (List ℚ) := Option.none
  stop : Option (List ℚ) := Option.none
  color : Option (List ℚ) := Option.none

/-- The per-point work of `render`'s point loop: position defaults to
(0,0,0), scale is `size` (default 6) times 0.05, color (default opaque
white `[1,1,1,1]`) is clamped/quantized by `_to_uchar_rgb` and the first
three channels are read (`rgb[0], rgb[1], rgb[2]` — an `IndexError`,
hence `Option.none`, if the color has fewer than three components). -/
def renderPoint (p : PPoint) : Option ((ℚ × ℚ × ℚ) × ℚ × (ℤ × ℤ × ℤ)) :=
  let pos := (p.x.getD 0, p.y.getD 0, p.z.getD 0)
  let scale := p.size.getD 6 * (1/20)
  match toUcharRgb (p.color.getD [1, 1, 1, 1]) with
  | r :: g :: b :: _ => Option.some (pos, scale, (r, g, b))
  | _ => Option.none

/-- First three rationals of a list as a coordinate triple
(`float(s[0]), float(s[1]), float(s[2])`; `Option.none` models the
`IndexError` on shorter lists). -/
def coord3 (l : List ℚ) : Option (ℚ × ℚ × ℚ) :=
  match l with
  | a :: b :: c :: _ => Option.some (a, b, c)
  | _ => Option.none

/-- The per-segment work of `render`'s line loop: a segment whose `start`
or `end` is missing or falsy (empty list) is skipped silently; otherwise
both endpoints are appended as a fresh pair and the quantized color is
attached to the cell. `pid` is the running line-point index. -/
def renderSeg (pid : ℕ) (seg : PSeg) :
    Option (Option ((ℚ × ℚ × ℚ) × (ℚ × ℚ × ℚ) × (ℕ × ℕ) × (ℤ × ℤ × ℤ))) :=
  match seg.start, seg.stop with
  | Option.some s, Option.some e =>
    if s = [] ∨ e = [] then Option.some Option.none
    else do
      let p0 ← coord3 s
      let p1 ← coord3 e
      match toUcharRgb (seg.color.getD [1, 1, 1, 1]) with
      | r :: g :: b :: _ => Option.some (Option.some (p0, p1, (pid, pid + 1), (r, g, b)))
      | _ => Option.none
  | _, _ => Option.some Option.none

/-- `render`'s line loop over all segments, threading the point index. -/
def renderSegs : ℕ → List PSeg →
    Option (List ((ℚ × ℚ × ℚ) × (ℚ × ℚ × ℚ) × (ℕ × ℕ) × (ℤ × ℤ × ℤ)))
  | _, [] => Option.some []
  | pid, seg :: rest => do
    match ← renderSeg pid seg with
    | Option.none => renderSegs pid rest
    | Option.some e => do
      let es ← renderSegs (pid + 2) rest
      pure (e :: es)

/-- `SceneRenderer.render(model)`: rebuild the point batch (caching each
point's derived scale and quantized color as its "original"), rebuild the
line batch, then reapply selection via `_update_selection_actor`.
`Option.none` models the uncaught `IndexError` paths on malformed colors
or short coordinate lists. -/
def render (s : RendererState) (pts : List PPoint) (segs : List PSeg) :
    Option RendererState := do
  let es ← pts.mapM renderPoint
  let ls ← renderSegs 0 segs
  let s1 : RendererState :=
    { s with
      positions := es.map (·.1)
      scales := es.map (·.2.1)
      colors := es.map (·.2.2)
      origScales := es.map (·.2.1)
      origColors := es.map (·.2.2)
      linePoints := ls.foldr (fun e acc => e.1 :: e.2.1 :: acc) []
      lineCells := ls.map (·.2.2.1)
      lineColors := ls.map (·.2.2.2) }
  pure (updateSelectionActor s1)

/-! ### picking and selection -/

/-- The head-of-stable-sort of the candidate list under
`key=lambda x: x[0]`: the first element attaining the minimal squared
screen distance. -/
def minCand (c : ℚ × ℤ) (rest : List (ℚ × ℤ)) : ℚ × ℤ :=
  rest.foldl (fun b x => if x.1 < b.1 then x else b) c

/-- Squared euclidean distance between two world points. -/
def dist2 (a b : ℚ × ℚ × ℚ) : ℚ :=
  (a.1 - b.1) ^ 2 + (a.2.1 - b.2.1) ^ 2 + (a.2.2 - b.2.2) ^ 2

/-- The pick-resolution part of `pick_and_select`: `candidates` is the
list of (squared screen distance, point id) pairs built from the
locator's radius query and the world→display projection (camera-dependent,
hence a parameter); `closest` is `FindClosestPoint(pick_pos)` (−1 when it
fails). A nonempty candidate list is resolved by minimal screen distance,
rejected above 20 px (squared: 400); an empty one falls back to the
closest point, rejected beyond 2.0 world units (squared: 4). -/
def resolvePick (s : RendererState) (candidates : List (ℚ × ℤ))
    (closest : ℤ) (pickPos : ℚ × ℚ × ℚ) : Option ℤ :=
  match candidates with
  | c :: rest =>
    let best := minCand c rest
    if best.1 > 20 * 20 then Option.none else Option.some best.2
  | [] =>
    if closest < 0 then Option.none
    else
      let p := s.positions.getD closest.toNat (0, 0, 0)
      if dist2 p pickPos > 2 * 2 then Option.none else Option.some closest

/-- The selection-toggle of `pick_and_select` with `multi=True`:
present → `remove` (first occurrence), absent → `append`. -/
def toggleSel (sel : List ℤ) (pid : ℤ) : List ℤ :=
  if pid ∈ sel then sel.erase pid else sel ++ [pid]

/-- `SceneRenderer.pick_and_select`: resolve the pick; on no match return
`None` immediately (the selection is untouched); otherwise mutate the
selection (`multi=False` replaces it, `multi=True` toggles) and reapply
highlights. Returns the resolved id and the new state. -/
def pickAndSelect (s : RendererState) (candidates : List (ℚ × ℤ))
    (closest : ℤ) (pickPos : ℚ × ℚ × ℚ) (multi : Bool) :
    Option ℤ × RendererState :=
  match resolvePick s candidates closest pickPos with
  | Option.none => (Option.none, s)
  | Option.some pid =>
    let sel := if multi then toggleSel s.selected_ids pid else [pid]
    (Option.some pid, updateSelectionActor { s with selected_ids := sel })

/-! ## ZMQ subscriber (`src/v3d/zmq_sub.py`) -/

/-- One iteration of the `ZMQSubscriber.run` receive loop, as seen from
the outside: the poll times out with nothing to read, a payload arrives
(`good` says whether `json.loads` succeeds; `payload` is its text), or an
unhandled exception is raised somewhere inside the `try` body. -/
inductive ZEvent where
  | silent
  | msg (good : Bool) (payload : String)
  | err (e : String)

/-- Observable outcome of a `run` execution: the documents forwarded via
`msg_received`, the strings emitted via `status`, whether `sock.close()`
and `ctx.term()` were reached, and whether an exception escaped `run`. -/
structure ZResult where
  emitted : List String
  statuses : List String
  closed : Bool
  propagated : Bool

/-- The `while self._running` loop of `run`, fed the iteration events until
the stop flag ends the trace. A good payload is forwarded; a bad one emits
a "Bad message" status and the loop continues; an unhandled error jumps to
the `except` clause, which emits a terminal status and swallows the
exception — the `sock.close()` / `ctx.term()` lines sit after the loop
inside the `try`, so they run only on a normal exit. -/
def zmqLoop : List ZEvent → ZResult → ZResult
  | [], r => { r with closed := true }
  | ZEvent.silent :: rest, r => zmqLoop rest r
  | ZEvent.msg true p :: rest, r => zmqLoop rest { r with emitted := r.emitted ++ [p] }
  | ZEvent.msg false p :: rest, r =>
    zmqLoop rest { r with statuses := r.statuses ++ ["Bad message: " ++ p] }
  | ZEvent.err e :: _, r =>
    { r with statuses := r.statuses ++ ["ZMQ thread error: " ++ e], propagated := false }

/-- `ZMQSubscriber.run()`: connect (emitting the connected status), run the
receive loop over the event trace, and close the socket and terminate the
context if — and only if — the loop fell out of `while` normally. -/
def zmqRun (addr : String) (events : List ZEvent) : ZResult :=
  zmqLoop events
    { emitted := [], statuses := ["ZMQ connected -> " ++ addr],
      closed := false, propagated := false }

/-- Whether a trace contains an unhandled-error event. -/
def hasErr : List ZEvent → Bool
  | [] => false
  | ZEvent.err _ :: _ => true
  | _ :: rest => hasErr rest

/-- A small concrete renderer state used to instantiate theorems: two
rendered points with aligned snapshot arrays, point 0 selected. -/
def demoState : RendererState :=
  { positions := [(0, 0, 0), (1, 1, 1)]
    scales := [1, 1]
    colors := [(1, 2, 3), (4, 5, 6)]
    linePoints := []
    lineCells := []
    lineColors := []
    selected_ids := [0]
    origScales := [1, 2]
    origColors := [(10, 20, 30), (40, 50, 60)] }

/-! ## Helper lemmas -/

/-- The attribute written by `set_from_dict` is a sequence provided the
incoming value under the key, when present, is one. -/
theorem isSeq_field_of_lookup (data : PyVal) (k : String)
    (h : ∀ v, dictLookup data k = Option.some v → isSeq v = true) :
    isSeq (if isDict data then dictGet data k (PyVal.pylist []) else PyVal.pylist []) = true := by
  cases hD : isDict data
  · rw [if_neg (by simp [hD])]
    rfl
  · rw [if_pos rfl]
    unfold dictGet
    cases hl : dictLookup data k
    · rfl
    · exact h _ hl

/-- If `f` succeeds on every element, `mapM` over `Option` succeeds with a
list of the same length, every element of which is an `f`-image of a list
element. -/
theorem mapM_option_total {α β : Type} (f : α → Option β) :
    ∀ l : List α, (∀ a ∈ l, ∃ b, f a = Option.some b) →
      ∃ bs, l.mapM f = Option.some bs ∧ bs.length = l.length ∧
        ∀ b ∈ bs, ∃ a ∈ l, f a = Option.some b
  | [], _ => ⟨[], rfl, rfl, by simp⟩
  | a :: l, h => by
    obtain ⟨b, hb⟩ := h a (by simp)
    obtain ⟨bs, hbs, hlen, hmem⟩ :=
      mapM_option_total f l (fun x hx => h x (List.mem_cons_of_mem a hx))
    refine ⟨b :: bs, ?_, by simp [hlen], ?_⟩
    · rw [List.mapM_cons, hb, hbs]; rfl
    · intro c hc
      rcases List.mem_cons.mp hc with rfl | hc
      · exact ⟨a, by simp, hb⟩
      · obtain ⟨x, hx, hfx⟩ := hmem c hc
        exact ⟨x, List.mem_cons_of_mem a hx, hfx⟩

/-- On a nonempty point list, `random.choice` succeeds and returns a list
element. -/
theorem pyChoice_of_ne_nil (pts : List RPoint) (h : pts ≠ []) (k : ℕ) :
    ∃ p, pyChoice pts k = Option.some p ∧ p ∈ pts := by
  have hlen : 0 < pts.length := List.length_pos.mpr h
  have hk : k % pts.length < pts.length := Nat.mod_lt _ hlen
  exact ⟨pts[k % pts.length], by
    unfold pyChoice
    exact List.getElem?_eq_getElem hk, List.getElem_mem hk⟩

/-- On a nonempty point list, one segment generation succeeds and both its
endpoints are positions of generated points. -/
theorem randSeg_total (pts : List RPoint) (h : pts ≠ []) (colf : List ℚ) (ks ke : ℕ) :
    ∃ seg, randSeg pts colf ks ke = Option.some seg ∧
      (∃ p ∈ pts, seg.start = [p.x, p.y, p.z]) ∧
      (∃ p ∈ pts, seg.stop = [p.x, p.y, p.z]) := by
  obtain ⟨s, hs, hsm⟩ := pyChoice_of_ne_nil pts h ks
  obtain ⟨e, he, hem⟩ := pyChoice_of_ne_nil pts h ke
  refine ⟨{ start := [s.x, s.y, s.z], stop := [e.x, e.y, e.z], color := colf, width := 2 },
    ?_, ⟨s, hsm, rfl⟩, ⟨e, hem, rfl⟩⟩
  unfold randSeg
  rw [hs, he]
  rfl

/-- Index-wise description of the highlight-apply loop: position `i < n`
of a length-`n` array holds `f i` when `i` is selected, and its original
value otherwise (repeated ids are harmless: each write stores the same
value). -/
theorem setAtIds_getD {α : Type} (n : ℕ) (f : ℕ → α) (d : α) :
    ∀ (ids : List ℤ) (a : List α), a.length = n → ∀ i : ℕ, i < n →
      (setAtIds n ids f a).getD i d =
        if (i : ℤ) ∈ ids then f i else a.getD i d
  | [], a, _, i, _ => by simp [setAtIds]
  | p :: ids, a, ha, i, hi => by
    have hstep :
        setAtIds n (p :: ids) f a =
          setAtIds n ids f
            (if p < 0 ∨ (n : ℤ) ≤ p then a else a.set p.toNat (f p.toNat)) := by
      simp [setAtIds]
    have hlen : (if p < 0 ∨ (n : ℤ) ≤ p then a else a.set p.toNat (f p.toNat)).length = n := by
      by_cases hg : p < 0 ∨ (n : ℤ) ≤ p
      · rw [if_pos hg]; exact ha
      · rw [if_neg hg, List.length_set]; exact ha
    rw [hstep, setAtIds_getD n f d ids _ hlen i hi]
    by_cases hmem : (i : ℤ) ∈ ids
    · rw [if_pos hmem, if_pos (List.mem_cons_of_mem p hmem)]
    · rw [if_neg hmem]
      by_cases hpi : p = (i : ℤ)
      · subst hpi
        have hg : ¬((i : ℤ) < 0 ∨ (n : ℤ) ≤ (i : ℤ)) := by
          push_neg
          exact ⟨by positivity, by exact_mod_cast hi⟩
        rw [if_neg hg, if_pos (List.mem_cons_self _ _)]
        have htn : (i : ℤ).toNat = i := Int.toNat_natCast i
        rw [htn, List.getD_eq_getElem?_getD,
          List.getElem?_set_self (by rw [ha]; exact hi), Option.getD_some]
      · have hmem' : ¬((i : ℤ) ∈ p :: ids) := by
          intro hc
          rcases List.mem_cons.mp hc with hc | hc
          · exact hpi hc.symm
          · exact hmem hc
        rw [if_neg hmem']
        by_cases hg : p < 0 ∨ (n : ℤ) ≤ p
        · rw [if_pos hg]
        · rw [if_neg hg]
          push_neg at hg
          have hne : p.toNat ≠ i := by
            intro hc
            apply hpi
            rw [← hc, Int.toNat_of_nonneg hg.1]
          rw [List.getD_eq_getElem?_getD, List.getElem?_set_ne hne,
            ← List.getD_eq_getElem?_getD]

/-- The head of the stable sort by squared screen distance is an element
of the candidate list. -/
theorem minCand_mem : ∀ (rest : List (ℚ × ℤ)) (c : ℚ × ℤ), minCand c rest ∈ c :: rest
  | [], c => by simp [minCand]
  | x :: rest, c => by
    have hstep : minCand c (x :: rest) = minCand (if x.1 < c.1 then x else c) rest := by
      simp [minCand]
    rw [hstep]
    by_cases hx : x.1 < (c.1 : ℚ)
    · rw [if_pos hx]
      rcases List.mem_cons.mp (minCand_mem rest x) with h | h
      · rw [h]; simp
      · exact List.mem_cons_of_mem _ (List.mem_cons_of_mem _ h)
    · rw [if_neg hx]
      rcases List.mem_cons.mp (minCand_mem rest c) with h | h
      · rw [h]; simp
      · exact List.mem_cons_of_mem _ (List.mem_cons_of_mem _ h)

/-- Toggling twice returns a permutation of the original selection, for
duplicate-free selections (the only ones `pick_and_select` produces). -/
theorem toggleSel_toggleSel_perm (sel : List ℤ) (pid : ℤ) (hnd : sel.Nodup) :
    (toggleSel (toggleSel sel pid) pid).Perm sel := by
  by_cases hmem : pid ∈ sel
  · have h1 : toggleSel sel pid = sel.erase pid := if_pos hmem
    have hnotin : pid ∉ sel.erase pid := hnd.not_mem_erase
    rw [h1, toggleSel, if_neg hnotin]
    exact (List.perm_append_singleton pid (sel.erase pid)).trans
      (List.perm_cons_erase hmem).symm
  · have h1 : toggleSel sel pid = sel ++ [pid] := if_neg hmem
    have hin : pid ∈ sel ++ [pid] := by simp
    rw [h1, toggleSel, if_pos hin, List.erase_append_right _ hmem]
    simp

/-- `_update_selection_actor` mutates only the live scale/color arrays and
the snapshots — never the selected-id list, positions or line data. -/
theorem updateSelectionActor_frame (s : RendererState) :
    (updateSelectionActor s).selected_ids = s.selected_ids ∧
    (updateSelectionActor s).positions = s.positions ∧
    (updateSelectionActor s).linePoints = s.linePoints ∧
    (updateSelectionActor s).lineCells = s.lineCells ∧
    (updateSelectionActor s).lineColors = s.lineColors :=
  ⟨rfl, rfl, rfl, rfl, rfl⟩

/-- The quantization of the default opaque-white color. -/
theorem toUcharRgb_white : toUcharRgb [1, 1, 1, 1] = [255, 255, 255] := by
  simp only [toUcharRgb, List.take_succ_cons, List.take_zero, List.map_cons, List.map_nil]
  norm_num

/-- Every quantized channel is an 8-bit value: clamping to [0,1] and
truncating the scaled float lands in 0..255. -/
theorem toUcharRgb_mem_bounds (l : List ℚ) : ∀ x ∈ toUcharRgb l, 0 ≤ x ∧ x ≤ 255 := by
  intro x hx
  simp only [toUcharRgb, List.mem_map] at hx
  obtain ⟨c, -, rfl⟩ := hx
  constructor
  · apply Int.floor_nonneg.mpr
    have h0 : (0 : ℚ) ≤ max 0 (min 1 c) := le_max_left _ _
    positivity
  · have hle : max 0 (min 1 c) * 255 ≤ 255 := by
      have h1 : max 0 (min 1 c) ≤ 1 := max_le zero_le_one (min_le_left _ _)
      nlinarith
    calc ⌊max 0 (min 1 c) * 255⌋ ≤ ⌊(255 : ℚ)⌋ := Int.floor_le_floor hle
      _ = 255 := by norm_num

/-! ## Claim theorems -/

/-- C2 counterexample: feeding `set_from_dict` the document
`{'points': None, 'segments': []}` stores `None` as the `points`
attribute — a present-but-null field is passed through verbatim, so the
"never null" part of the claim fails. -/
theorem setFromDict_none_passthrough :
    (setFromDict SceneModelS.init
        (PyVal.pydict [("points", PyVal.pynone), ("segments", PyVal.pylist [])])).points
      = PyVal.pynone ∧
    isSeq (setFromDict SceneModelS.init
        (PyVal.pydict [("points", PyVal.pynone), ("segments", PyVal.pylist [])])).points
      = false :=
  ⟨rfl, rfl⟩

/-- C2 (amended): `set_from_dict` never raises (it is a total function);
the attributes default to empty sequences when the input is not a dict or
the keys are absent, but a present value is stored verbatim — so both
attributes are guaranteed to be sequences exactly when every present
`points`/`segments` entry of the input is itself a sequence. -/
theorem setFromDict_seq_of_wellTyped (m : SceneModelS) (data : PyVal)
    (hp : ∀ v, dictLookup data "points" = Option.some v → isSeq v = true)
    (hs : ∀ v, dictLookup data "segments" = Option.some v → isSeq v = true) :
    isSeq (setFromDict m data).points = true ∧
    isSeq (setFromDict m data).segments = true :=
  ⟨isSeq_field_of_lookup data "points" hp, isSeq_field_of_lookup data "segments" hs⟩

/-- Witness for C2: a dict with a list under `points`, an extra ignored
field and no `segments` key yields sequence attributes. -/
theorem setFromDict_seq_witness :
    isSeq (setFromDict SceneModelS.init
        (PyVal.pydict [("points", PyVal.pylist [PyVal.pyint 1]), ("extra", PyVal.pyint 3)])).points
      = true ∧
    isSeq (setFromDict SceneModelS.init
        (PyVal.pydict [("points", PyVal.pylist [PyVal.pyint 1]), ("extra", PyVal.pyint 3)])).segments
      = true :=
  setFromDict_seq_of_wellTyped _ _
    (fun _ h => by injection h with h'; subst h'; rfl)
    (fun _ h => Option.noConfusion h)

/-- C5: importing a valid scene document (a dict whose `points` and
`segments` entries are sequences) with `set_from_dict` and exporting with
`to_dict` yields a document holding the same points and segments, field
for field (extra input fields are the only thing not carried over). -/
theorem import_export_roundtrip (m : SceneModelS) (l : List (String × PyVal)) (ps ss : PyVal)
    (hps : l.lookup "points" = Option.some ps)
    (hss : l.lookup "segments" = Option.some ss)
    (_hp : isSeq ps = true) (_hs : isSeq ss = true) :
    toDict (setFromDict m (PyVal.pydict l)) = mkDoc ps ss := by
  simp only [toDict, setFromDict, mkDoc, dictGet, dictLookup, isDict, if_pos, ite_true]
  rw [hps, hss]

/-- Witness for C5: a concrete one-point, zero-segment document
round-trips unchanged. -/
theorem import_export_roundtrip_witness :
    toDict (setFromDict SceneModelS.init
        (PyVal.pydict [("points", PyVal.pylist [PyVal.pyint 1]), ("segments", PyVal.pylist [])]))
      = mkDoc (PyVal.pylist [PyVal.pyint 1]) (PyVal.pylist []) :=
  import_export_roundtrip _ _ _ _ rfl rfl rfl rfl

/-- C4 counterexample: `randomize(n_points=0, n_segments=1)` does not
succeed — `random.choice` is called on the empty point list and raises
`IndexError` (modelled as `Option.none`), contradicting "for every pair of
non-negative integers N and M, calling randomize succeeds". -/
theorem randomize_zero_points_raises :
    randomizeM 0 1 (fun _ => (0, 0, 0, 0, [])) (fun _ => (0, 0)) (fun _ => [])
      = Option.none :=
  rfl

/-- C4 (amended): whenever `n_points > 0` or `n_segments = 0` (so that
`random.choice` is never called on an empty list), `randomize` succeeds
with exactly N points and M segments, and every generated segment's start
and end positions equal the (x,y,z) position of some generated point. -/
theorem randomize_counts_and_endpoints (n m : ℕ)
    (gp : ℕ → ℚ × ℚ × ℚ × ℚ × List ℚ) (gc : ℕ → ℕ × ℕ) (gcol : ℕ → List ℚ)
    (h : 0 < n ∨ m = 0) :
    ∃ pts segs, randomizeM n m gp gc gcol = Option.some (pts, segs) ∧
      pts.length = n ∧ segs.length = m ∧
      ∀ seg ∈ segs, (∃ p ∈ pts, seg.start = [p.x, p.y, p.z]) ∧
        (∃ p ∈ pts, seg.stop = [p.x, p.y, p.z]) := by
  rcases h with hn | hm
  · have hne : (List.range n).map (randPoint gp) ≠ [] := by
      intro hnil
      have : ((List.range n).map (randPoint gp)).length = 0 := by rw [hnil]; rfl
      simp at this
      omega
    obtain ⟨bs, hbs, hlen, hmem⟩ :=
      mapM_option_total
        (fun j => randSeg ((List.range n).map (randPoint gp)) (gcol j) (gc j).1 (gc j).2)
        (List.range m)
        (fun j _ => by
          obtain ⟨seg, hseg, -, -⟩ :=
            randSeg_total ((List.range n).map (randPoint gp)) hne (gcol j) (gc j).1 (gc j).2
          exact ⟨seg, hseg⟩)
    refine ⟨(List.range n).map (randPoint gp), bs, ?_, by simp, by simp [hlen], ?_⟩
    · simp only [randomizeM]
      rw [hbs]
      rfl
    · intro seg hseg
      obtain ⟨j, _, hfj⟩ := hmem seg hseg
      obtain ⟨seg', hseg', h1, h2⟩ :=
        randSeg_total ((List.range n).map (randPoint gp)) hne (gcol j) (gc j).1 (gc j).2
      rw [hseg'] at hfj
      injection hfj with h'
      subst h'
      exact ⟨h1, h2⟩
  · subst hm
    refine ⟨(List.range n).map (randPoint gp), [], ?_, by simp, rfl, by simp⟩
    unfold randomizeM
    rfl

/-- Witness for C4: `randomize(2, 1)` with concrete random draws succeeds
with the stated counts and endpoint property. -/
theorem randomize_counts_witness :
    ∃ pts segs,
      randomizeM 2 1 (fun _ => (0, 0, 0, 1, [])) (fun _ => (0, 1)) (fun _ => [])
        = Option.some (pts, segs) ∧
      pts.length = 2 ∧ segs.length = 1 ∧
      ∀ seg ∈ segs, (∃ p ∈ pts, seg.start = [p.x, p.y, p.z]) ∧
        (∃ p ∈ pts, seg.stop = [p.x, p.y, p.z]) :=
  randomize_counts_and_endpoints 2 1 _ _ _ (Or.inl (by decide))

/-- C1 counterexample: with point 0 already selected, a `multi=false` pick
whose minimum squared screen distance (500 px²) exceeds the 20·20 px²
threshold returns no match — and the previous selection is still `[0]`,
not cleared as the claim requires. -/
theorem pick_nomatch_keeps_selection_cex :
    (pickAndSelect demoState [(500, 1)] (-1) (0, 0, 0) false).1 = Option.none ∧
    (pickAndSelect demoState [(500, 1)] (-1) (0, 0, 0) false).2.selected_ids = [0] ∧
    (pickAndSelect demoState [(500, 1)] (-1) (0, 0, 0) false).2.selected_ids ≠ [] := by
  have h : resolvePick demoState [(500, 1)] (-1) (0, 0, 0) = Option.none := by
    simp only [resolvePick, minCand, List.foldl_nil]
    rw [if_pos (by norm_num)]
  refine ⟨?_, ?_, ?_⟩
  · simp only [pickAndSelect, h]
  · simp only [pickAndSelect, h]
    rfl
  · simp only [pickAndSelect, h]
    simp [demoState]

/-- C1 (amended): when the pick resolves to no match (threshold exceeded
or fallback rejected), `pick_and_select` returns `None` immediately and
leaves the renderer state — selection included — unchanged: the early
return precedes the selection mutation, so the old selection is silently
preserved rather than cleared. -/
theorem pick_nomatch_state_unchanged (s : RendererState) (cands : List (ℚ × ℤ))
    (cl : ℤ) (pp : ℚ × ℚ × ℚ) (multi : Bool)
    (h : resolvePick s cands cl pp = Option.none) :
    pickAndSelect s cands cl pp multi = (Option.none, s) := by
  simp only [pickAndSelect, h]

/-- Witness for C1: a pick with no candidates and a failed locator query
(`FindClosestPoint = -1`) leaves the concrete state untouched. -/
theorem pick_nomatch_witness :
    pickAndSelect demoState [] (-1) (0, 0, 0) false = (Option.none, demoState) :=
  pick_nomatch_state_unchanged demoState [] (-1) (0, 0, 0) false (by decide)

/-- C6: with snapshot arrays index-aligned with the point count (as after
a render, which captures them), highlight reapplication first resets every
point to its cached original and then applies scale × 2.5 and the fixed
highlight color (255,0,0) exactly to the in-range selected indices; in
particular a point not (or no longer) in the selection — e.g. one that was
selected and then deselected — gets back the exact cached original scale
and color, and the snapshots themselves are untouched. -/
theorem highlight_reapply_roundtrip (s : RendererState)
    (hos : s.origScales.length = s.positions.length)
    (hoc : s.origColors.length = s.positions.length)
    (i : ℕ) (hi : i < s.positions.length) :
    ((updateSelectionActor s).scales.getD i 0 =
      if (i : ℤ) ∈ s.selected_ids then s.origScales.getD i 0 * (5/2)
      else s.origScales.getD i 0) ∧
    ((updateSelectionActor s).colors.getD i (0, 0, 0) =
      if (i : ℤ) ∈ s.selected_ids then ((255 : ℤ), (0 : ℤ), (0 : ℤ))
      else s.origColors.getD i (0, 0, 0)) ∧
    (updateSelectionActor s).origScales = s.origScales ∧
    (updateSelectionActor s).origColors = s.origColors ∧
    ((i : ℤ) ∉ s.selected_ids →
      (updateSelectionActor s).scales.getD i 0 = s.origScales.getD i 0 ∧
      (updateSelectionActor s).colors.getD i (0, 0, 0) = s.origColors.getD i (0, 0, 0)) := by
  have hsc : (updateSelectionActor s).scales =
      setAtIds s.positions.length s.selected_ids
        (fun j => s.origScales.getD j 0 * (5/2)) s.origScales := by
    simp only [updateSelectionActor]
    rw [if_pos hos]
  have hco : (updateSelectionActor s).colors =
      setAtIds s.positions.length s.selected_ids
        (fun _ => ((255 : ℤ), (0 : ℤ), (0 : ℤ))) s.origColors := by
    simp only [updateSelectionActor]
    rw [if_pos hoc]
  have h1 : (updateSelectionActor s).scales.getD i 0 =
      if (i : ℤ) ∈ s.selected_ids then s.origScales.getD i 0 * (5/2)
      else s.origScales.getD i 0 := by
    rw [hsc]
    exact setAtIds_getD s.positions.length
      (fun j => s.origScales.getD j 0 * (5/2)) 0 s.selected_ids s.origScales hos i hi
  have h2 : (updateSelectionActor s).colors.getD i (0, 0, 0) =
      if (i : ℤ) ∈ s.selected_ids then ((255 : ℤ), (0 : ℤ), (0 : ℤ))
      else s.origColors.getD i (0, 0, 0) := by
    rw [hco]
    exact setAtIds_getD s.positions.length
      (fun _ => ((255 : ℤ), (0 : ℤ), (0 : ℤ))) (0, 0, 0) s.selected_ids s.origColors hoc i hi
  refine ⟨h1, h2, ?_, ?_, ?_⟩
  · simp only [updateSelectionActor]
    rw [if_pos hos]
  · simp only [updateSelectionActor]
    rw [if_pos hoc]
  · intro hnot
    exact ⟨by rw [h1, if_neg hnot], by rw [h2, if_neg hnot]⟩

/-- Witness for C6: in the concrete state, unselected point 1 keeps its
cached original scale 2 and color (40,50,60) after reapplication, while
selected point 0 gets scale 1 × 2.5 and the highlight color. -/
theorem highlight_reapply_witness :
    (updateSelectionActor demoState).scales.getD 1 0 = 2 ∧
    (updateSelectionActor demoState).colors.getD 1 (0, 0, 0) = (40, 50, 60) ∧
    (updateSelectionActor demoState).scales.getD 0 0 = 5/2 ∧
    (updateSelectionActor demoState).colors.getD 0 (0, 0, 0) = (255, 0, 0) := by
  obtain ⟨h1, h2, -, -, -⟩ := highlight_reapply_roundtrip demoState rfl rfl 1 (by decide)
  obtain ⟨h3, h4, -, -, -⟩ := highlight_reapply_roundtrip demoState rfl rfl 0 (by decide)
  refine ⟨?_, ?_, ?_, ?_⟩
  · rw [h1]
    norm_num [demoState, List.getD_cons_succ, List.getD_cons_zero]
  · rw [h2]
    norm_num [demoState, List.getD_cons_succ, List.getD_cons_zero]
  · rw [h3]
    norm_num [demoState, List.getD_cons_zero]
  · rw [h4]
    norm_num [demoState, List.getD_cons_zero]

/-- C7: two successive `pick_and_select` calls with `multi=true` that both
resolve to the same index return the selection to its prior state up to
order (present → removed then re-appended, absent → appended then
removed), for the duplicate-free selections the renderer maintains. -/
theorem pick_toggle_pairs (s : RendererState)
    (cands cands2 : List (ℚ × ℤ)) (cl cl2 : ℤ) (pp pp2 : ℚ × ℚ × ℚ) (i : ℤ)
    (hnd : s.selected_ids.Nodup)
    (h1 : resolvePick s cands cl pp = Option.some i)
    (h2 : resolvePick (pickAndSelect s cands cl pp true).2 cands2 cl2 pp2 = Option.some i) :
    ((pickAndSelect (pickAndSelect s cands cl pp true).2 cands2 cl2 pp2 true).2).selected_ids.Perm
      s.selected_ids := by
  have key : ∀ (t : RendererState) (cs : List (ℚ × ℤ)) (c : ℤ) (p : ℚ × ℚ × ℚ) (j : ℤ),
      resolvePick t cs c p = Option.some j →
      (pickAndSelect t cs c p true).2.selected_ids = toggleSel t.selected_ids j :=
    fun t cs c p j hj => by
      simp only [pickAndSelect, hj]
      rfl
  rw [key _ _ _ _ _ h2, key _ _ _ _ _ h1]
  exact toggleSel_toggleSel_perm s.selected_ids i hnd

/-- Witness for C7: toggling point 0 twice in the concrete state (both
picks resolve to index 0 at zero screen distance) permutes the selection
back to `[0]`. -/
theorem pick_toggle_witness :
    ((pickAndSelect (pickAndSelect demoState [(0, 0)] (-1) (0, 0, 0) true).2
        [(0, 0)] (-1) (0, 0, 0) true).2).selected_ids.Perm demoState.selected_ids :=
  pick_toggle_pairs demoState [(0, 0)] [(0, 0)] (-1) (-1) (0, 0, 0) (0, 0, 0) 0
    (by simp [demoState])
    (by
      simp only [resolvePick, minCand, List.foldl_nil]
      rw [if_neg (by norm_num)])
    (by
      simp only [resolvePick, minCand, List.foldl_nil]
      rw [if_neg (by norm_num)])

/-- C8: a nonempty candidate set whose (minimal) squared screen distance
everywhere exceeds 20·20 px² resolves to no match; with an empty candidate
set the fallback closest point is rejected when the locator fails
(`closest < 0`) and otherwise accepted exactly when its squared world
distance to the pick position is within 2.0·2.0 units. -/
theorem resolvePick_thresholds (s : RendererState) (cands : List (ℚ × ℤ))
    (cl : ℤ) (pp : ℚ × ℚ × ℚ) :
    (cands ≠ [] → (∀ x ∈ cands, (20 * 20 : ℚ) < x.1) →
      resolvePick s cands cl pp = Option.none) ∧
    (cands = [] → cl < 0 → resolvePick s cands cl pp = Option.none) ∧
    (cands = [] → 0 ≤ cl →
      resolvePick s cands cl pp =
        if dist2 (s.positions.getD cl.toNat (0, 0, 0)) pp ≤ 2 * 2 then Option.some cl
        else Option.none) := by
  refine ⟨?_, ?_, ?_⟩
  · intro hne hall
    cases cands with
    | nil => exact absurd rfl hne
    | cons c rest =>
      have hgt : (20 * 20 : ℚ) < (minCand c rest).1 := hall _ (minCand_mem rest c)
      simp only [resolvePick]
      rw [if_pos hgt]
  · intro he hcl
    subst he
    simp only [resolvePick]
    rw [if_pos hcl]
  · intro he hcl
    subst he
    simp only [resolvePick]
    rw [if_neg (not_lt.mpr hcl)]
    by_cases hd : dist2 (s.positions.getD cl.toNat (0, 0, 0)) pp ≤ 2 * 2
    · rw [if_pos hd, if_neg (not_lt.mpr hd)]
    · rw [if_neg hd, if_pos (lt_of_not_le hd)]

/-- Witness for C8: candidates at 401 and 1000 px² are all beyond the
threshold, so no match; with no candidates, the fallback point (0,0,0) is
9 world units from the pick position, beyond 2.0, so no match either. -/
theorem resolvePick_thresholds_witness :
    resolvePick demoState [(401, 0), (1000, 1)] (-1) (0, 0, 0) = Option.none ∧
    resolvePick demoState [] 0 (9, 0, 0) = Option.none := by
  constructor
  · exact (resolvePick_thresholds demoState [(401, 0), (1000, 1)] (-1) (0, 0, 0)).1
      (by simp) (by simp [List.forall_mem_cons]; norm_num)
  · have h := (resolvePick_thresholds demoState [] 0 (9, 0, 0)).2.2 rfl (by norm_num)
    rw [h]
    rw [if_neg (by norm_num [demoState, dist2, List.getD_cons_zero])]

/-- C10: `clear()` empties the point and line batch arrays and modifies
nothing else — the selected index list and the cached original scale/color
snapshots survive untouched. -/
theorem clear_frame (s : RendererState) :
    (rclear s).selected_ids = s.selected_ids ∧
    (rclear s).origScales = s.origScales ∧
    (rclear s).origColors = s.origColors ∧
    (rclear s).positions = [] ∧ (rclear s).scales = [] ∧ (rclear s).colors = [] ∧
    (rclear s).linePoints = [] ∧ (rclear s).lineCells = [] ∧ (rclear s).lineColors = [] :=
  ⟨rfl, rfl, rfl, rfl, rfl, rfl, rfl, rfl, rfl⟩

/-- C9: per point processed by `render`: the batched display scale is
`size * 0.05` with size defaulting to 6, the position defaults to the
origin, and the color (default opaque white) has each component clamped to
[0,1], scaled by 255 and truncated to an integer channel in 0..255 —
the fourth (alpha) component is dropped. -/
theorem render_point_processing (p : PPoint) :
    (∀ c0 c1 c2 rest, p.color = Option.some (c0 :: c1 :: c2 :: rest) →
      renderPoint p = Option.some ((p.x.getD 0, p.y.getD 0, p.z.getD 0),
        p.size.getD 6 * (1/20),
        (⌊max 0 (min 1 c0) * 255⌋, ⌊max 0 (min 1 c1) * 255⌋, ⌊max 0 (min 1 c2) * 255⌋))) ∧
    (p.color = Option.none →
      renderPoint p = Option.some ((p.x.getD 0, p.y.getD 0, p.z.getD 0),
        p.size.getD 6 * (1/20), (255, 255, 255))) ∧
    (p.x = Option.none → p.y = Option.none → p.z = Option.none →
     p.size = Option.none → p.color = Option.none →
      renderPoint p = Option.some ((0, 0, 0), 3/10, (255, 255, 255))) ∧
    (∀ x ∈ toUcharRgb (p.color.getD [1, 1, 1, 1]), 0 ≤ x ∧ x ≤ 255) := by
  have hwhite : p.color = Option.none →
      renderPoint p = Option.some ((p.x.getD 0, p.y.getD 0, p.z.getD 0),
        p.size.getD 6 * (1/20), (255, 255, 255)) := by
    intro hc
    simp only [renderPoint, hc, Option.getD_none]
    rw [toUcharRgb_white]
  refine ⟨?_, hwhite, ?_, toUcharRgb_mem_bounds _⟩
  · intro c0 c1 c2 rest hc
    simp only [renderPoint, hc, Option.getD_some, toUcharRgb,
      List.take_succ_cons, List.take_zero, List.map_cons, List.map_nil]
  · intro hx hy hz hs hc
    rw [hwhite hc, hx, hy, hz, hs]
    norm_num

/-- Witness for C9: a fully-defaulted point maps to the origin, scale
6 × 0.05 = 0.3 and opaque white; a point with color `[2, 1, -1, 0]` has
its channels clamped then quantized to (255, 255, 0), alpha dropped. -/
theorem render_point_witness :
    renderPoint {} = Option.some ((0, 0, 0), 3/10, (255, 255, 255)) ∧
    renderPoint { x := Option.some 1, color := Option.some [2, 1, -1, 0] } =
      Option.some ((1, 0, 0), 3/10, (255, 255, 0)) := by
  constructor
  · exact (render_point_processing {}).2.2.1 rfl rfl rfl rfl rfl
  · have h := (render_point_processing
      { x := Option.some 1, color := Option.some [2, 1, -1, 0] }).1 2 1 (-1) [0] rfl
    rw [h]
    norm_num

/-- C3 counterexample: a run whose loop dies on an unhandled error emits
the terminal status event but never reaches `sock.close()` / `ctx.term()`
— the cleanup sits inside the `try`, not in a `finally`, so "network
resources are released on exit regardless of how the loop ended" fails. -/
theorem zmq_error_skips_cleanup_cex :
    (zmqRun "tcp://127.0.0.1:5556" [ZEvent.err "boom"]).closed = false ∧
    (zmqRun "tcp://127.0.0.1:5556" [ZEvent.err "boom"]).statuses =
      ["ZMQ connected -> tcp://127.0.0.1:5556", "ZMQ thread error: boom"] ∧
    (zmqRun "tcp://127.0.0.1:5556" [ZEvent.err "boom"]).propagated = false := by
  refine ⟨rfl, rfl, rfl⟩

/-- Invariants of the receive loop, by induction over the event trace:
an error-free trace runs to the cleanup lines (and keeps the propagation
flag), while a trace hitting an unhandled error leaves `closed` as it was,
swallows the exception and records a terminal error status. -/
theorem zmqLoop_props (events : List ZEvent) : ∀ r : ZResult,
    (hasErr events = false → (zmqLoop events r).closed = true ∧
      (zmqLoop events r).propagated = r.propagated) ∧
    (hasErr events = true → (zmqLoop events r).closed = r.closed ∧
      (zmqLoop events r).propagated = false ∧
      ∃ e, ("ZMQ thread error: " ++ e) ∈ (zmqLoop events r).statuses) := by
  induction events with
  | nil =>
    intro r
    exact ⟨fun _ => ⟨rfl, rfl⟩, fun h => Bool.noConfusion h⟩
  | cons ev rest ih =>
    intro r
    cases ev with
    | silent => exact ih r
    | msg good p =>
      cases good with
      | true => exact ih { r with emitted := r.emitted ++ [p] }
      | false => exact ih { r with statuses := r.statuses ++ ["Bad message: " ++ p] }
    | err e =>
      refine ⟨fun h => Bool.noConfusion h, fun _ => ⟨rfl, rfl, e, ?_⟩⟩
      exact List.mem_append_right _ (List.mem_singleton.mpr rfl)

/-- C3 (amended): the receive loop never propagates an exception; on a
normal stop request the socket and context are closed, but when the loop
exits via an unhandled error the error is reported as a terminal status
event and the socket/context cleanup is skipped (it lies inside the `try`
rather than in a `finally` block). -/
theorem zmqRun_cleanup (addr : String) (events : List ZEvent) :
    (zmqRun addr events).propagated = false ∧
    (hasErr events = false → (zmqRun addr events).closed = true) ∧
    (hasErr events = true → (zmqRun addr events).closed = false ∧
      ∃ e, ("ZMQ thread error: " ++ e) ∈ (zmqRun addr events).statuses) := by
  have h := zmqLoop_props events
    { emitted := [], statuses := ["ZMQ connected -> " ++ addr],
      closed := false, propagated := false }
  refine ⟨?_, fun hne => ((h.1 hne).1 : _), fun he => ⟨(h.2 he).1, (h.2 he).2.2⟩⟩
  cases hcase : hasErr events with
  | false => exact (h.1 hcase).2
  | true => exact (h.2 hcase).2.1

/-- Witness for C3: a trace that is stopped normally after one good
message ends closed; a trace with a bad message followed by an unhandled
error ends not closed. -/
theorem zmqRun_cleanup_witness :
    (zmqRun "tcp://x" [ZEvent.msg true "doc"]).closed = true ∧
    (zmqRun "tcp://x" [ZEvent.msg false "oops", ZEvent.err "boom"]).closed = false := by
  constructor
  · exact (zmqRun_cleanup "tcp://x" [ZEvent.msg true "doc"]).2.1 rfl
  · exact ((zmqRun_cleanup "tcp://x" [ZEvent.msg false "oops", ZEvent.err "boom"]).2.2 rfl).1

end Voxel3D
